import Mathlib

/-!
Verification of the stasher-cli core: the length-aware base64url codec, the
stash-token grammar, the authenticated-envelope crypto core, the wire-payload
serializer and the resilient request layer, shallowly embedded from the
TypeScript sources (src/utils/crypto.ts, src/utils/fetch-retry.ts and the
validation/constants modules).

Modelling conventions:
- JavaScript strings are lists of UTF-16 code units (`List Nat`); `toCodes`
  converts a Lean string literal.
- Byte buffers are `List Nat` with every element `< 256`.
- `Buffer.from(s, 'base64')` never throws in Node: it skips characters with no
  sextet value and stops at the first `'='`.  `nodeB64Decode` models exactly
  that.
- Functions whose claims speak about "before any decode / cipher call" have an
  instrumented variant (suffix `T`) returning the result paired with the number
  of buffer-decode or cipher invocations performed.
-/

deriving instance DecidableEq for Except

/-- Convert a Lean string literal to the UTF-16-code-unit view used for
JavaScript strings (all literals in this development are ASCII, where code
units and code points agree). -/
def toCodes (s : String) : List Nat := s.toList.map Char.toNat

/-- Shared constant KEY_LENGTH from constants.ts (256-bit key). -/
def KEY_LENGTH : Nat := 32

/-- Shared constant IV_LENGTH from constants.ts (96-bit IV for GCM). -/
def IV_LENGTH : Nat := 12

/-- Shared constant TAG_LENGTH from constants.ts (128-bit auth tag). -/
def TAG_LENGTH : Nat := 16

/-- Character class of the base64url alphabet `[A-Za-z0-9_-]`
(the regex used by `validateBase64AndGetLength` and `BASE64URL_REGEX`). -/
def isB64UrlChar (c : Nat) : Bool :=
  (65 ≤ c && c ≤ 90) || (97 ≤ c && c ≤ 122) || (48 ≤ c && c ≤ 57) || c == 45 || c == 95

/-- Character class of the standard base64 alphabet `[A-Za-z0-9+/]`. -/
def isB64StdChar (c : Nat) : Bool :=
  (65 ≤ c && c ≤ 90) || (97 ≤ c && c ≤ 122) || (48 ≤ c && c ≤ 57) || c == 43 || c == 47

/-- Sextet value of a character under Node's `'base64'` decoder, which accepts
both the standard and the URL-safe alphabet; `none` for characters that carry
no value (they are skipped) and for `'='`. -/
def b64Val (c : Nat) : Option Nat :=
  if 65 ≤ c && c ≤ 90 then some (c - 65)
  else if 97 ≤ c && c ≤ 122 then some (c - 97 + 26)
  else if 48 ≤ c && c ≤ 57 then some (c - 48 + 52)
  else if c == 43 || c == 45 then some 62
  else if c == 47 || c == 95 then some 63
  else none

/-- Standard-alphabet character of a sextet value (`Buffer.toString('base64')`). -/
def b64Char (v : Nat) : Nat :=
  if v < 26 then 65 + v
  else if v < 52 then 97 + v - 26
  else if v < 62 then 48 + v - 52
  else if v == 62 then 43
  else 47

/-- The character substitution performed by `toBase64Url`:
`+` becomes `-` and `/` becomes `_`. -/
def subChar (c : Nat) : Nat := if c == 43 then 45 else if c == 47 then 95 else c

/-- The character substitution performed by `decodeBase64Url`:
`-` becomes `+` and `_` becomes `/`. -/
def normChar (c : Nat) : Nat := if c == 45 then 43 else if c == 95 then 47 else c

/-- Bytes to sextets, three bytes to four sextets, as in standard base64. -/
def b64EncodeSextets : List Nat → List Nat
  | [] => []
  | [x] => [x / 4, x % 4 * 16]
  | [x, y] => [x / 4, x % 4 * 16 + y / 16, y % 16 * 4]
  | x :: y :: z :: rest =>
      x / 4 :: (x % 4 * 16 + y / 16) :: (y % 16 * 4 + z / 64) :: z % 64 :: b64EncodeSextets rest

/-- Number of `'='` padding characters standard base64 appends. -/
def padLenB64 (n : Nat) : Nat := if n % 3 == 1 then 2 else if n % 3 == 2 then 1 else 0

/-- Node's `buf.toString('base64')`: standard alphabet with padding. -/
def nodeB64EncodeStd (b : List Nat) : List Nat :=
  (b64EncodeSextets b).map b64Char ++ List.replicate (padLenB64 b.length) 61

/-- The `.replace(/=+$/, '')` step: strip the trailing run of `'='`. -/
def stripTrailingEq (s : List Nat) : List Nat :=
  (s.reverse.dropWhile (fun c => c == 61)).reverse

/-- toBase64Url from crypto.ts: `b.toString('base64')`, substitute `+/` by
`-_`, strip trailing padding. -/
def toBase64Url (b : List Nat) : List Nat :=
  stripTrailingEq ((nodeB64EncodeStd b).map subChar)

/-- encodeKey from crypto.ts. -/
def encodeKey (key : List Nat) : List Nat := toBase64Url key

/-- Sextets back to bytes, four sextets to three bytes; a leftover of two or
three sextets yields one or two bytes, a single leftover sextet yields none
(Node's decoder). -/
def b64DecodeSextets : List Nat → List Nat
  | a :: b :: c :: d :: rest =>
      (a * 4 + b / 16) :: (b % 16 * 16 + c / 4) :: (c % 4 * 64 + d) :: b64DecodeSextets rest
  | [a, b] => [a * 4 + b / 16]
  | [a, b, c] => [a * 4 + b / 16, b % 16 * 16 + c / 4]
  | _ => []

/-- Collect the sextet values of a string the way Node's base64 decoder does:
stop at the first `'='`, skip characters with no value. -/
def collectSextets : List Nat → List Nat
  | [] => []
  | c :: rest =>
      if c == 61 then []
      else match b64Val c with
        | some v => v :: collectSextets rest
        | none => collectSextets rest

/-- Node's `Buffer.from(s, 'base64')`. It never throws. -/
def nodeB64Decode (s : List Nat) : List Nat := b64DecodeSextets (collectSextets s)

/-- The `while (padded.length % 4) padded += '='` loop of `decodeBase64Url`. -/
def padTo4 (s : List Nat) : List Nat := s ++ List.replicate ((4 - s.length % 4) % 4) 61

/-- decodeBase64Url from crypto.ts: add padding, substitute `-_` back to `+/`,
and decode with Node's (lenient, never-throwing) base64 decoder. -/
def decodeBase64Url (input : List Nat) : List Nat :=
  nodeB64Decode ((padTo4 input).map normChar)

theorem b64Val_b64Char : ∀ v : Nat, v < 64 →
    b64Val (normChar (subChar (b64Char v))) = some v ∧ normChar (subChar (b64Char v)) ≠ 61 := by
  decide

theorem b64EncodeSextets_lt : ∀ b : List Nat, (∀ a ∈ b, a < 256) →
    ∀ v ∈ b64EncodeSextets b, v < 64 := by
  intro b
  induction b using b64EncodeSextets.induct with
  | case1 => intro _ v hv; simp [b64EncodeSextets] at hv
  | case2 x =>
      intro hb v hv
      have hx := hb x (by simp)
      simp [b64EncodeSextets] at hv
      rcases hv with h | h <;> omega
  | case3 x y =>
      intro hb v hv
      have hx := hb x (by simp)
      have hy := hb y (by simp)
      simp [b64EncodeSextets] at hv
      rcases hv with h | h | h <;> omega
  | case4 x y z rest ih =>
      intro hb v hv
      have hx := hb x (by simp)
      have hy := hb y (by simp)
      have hz := hb z (by simp)
      simp only [b64EncodeSextets, List.mem_cons] at hv
      rcases hv with h | h | h | h | h
      · omega
      · omega
      · omega
      · omega
      · exact ih (fun a ha => hb a (by simp [ha])) v h

theorem b64DecodeSextets_encode : ∀ b : List Nat, (∀ a ∈ b, a < 256) →
    b64DecodeSextets (b64EncodeSextets b) = b := by
  intro b
  induction b using b64EncodeSextets.induct with
  | case1 => intro _; rfl
  | case2 x =>
      intro hb
      have hx := hb x (by simp)
      simp [b64EncodeSextets, b64DecodeSextets]
      omega
  | case3 x y =>
      intro hb
      have hx := hb x (by simp)
      have hy := hb y (by simp)
      simp [b64EncodeSextets, b64DecodeSextets]
      omega
  | case4 x y z rest ih =>
      intro hb
      have hx := hb x (by simp)
      have hy := hb y (by simp)
      have hz := hb z (by simp)
      have hrest := ih (fun a ha => hb a (by simp [ha]))
      simp [b64EncodeSextets, b64DecodeSextets, hrest]
      omega

theorem collectSextets_replicate_eq (k : Nat) :
    collectSextets (List.replicate k 61) = [] := by
  cases k with
  | zero => rfl
  | succ n => simp [List.replicate, collectSextets]

theorem collectSextets_encoded (vs : List Nat) (h : ∀ v ∈ vs, v < 64) (k : Nat) :
    collectSextets (vs.map (fun v => normChar (subChar (b64Char v))) ++ List.replicate k 61) = vs := by
  induction vs with
  | nil => simpa using collectSextets_replicate_eq k
  | cons v rest ih =>
      have hv := b64Val_b64Char v (h v (by simp))
      have hrest := ih (fun a ha => h a (by simp [ha]))
      simp only [List.map_cons, List.cons_append, collectSextets]
      rw [if_neg (by simpa using hv.2), hv.1]
      simpa using hrest

theorem stripTrailingEq_append_replicate (s : List Nat) (k : Nat) :
    stripTrailingEq (s ++ List.replicate k 61) = stripTrailingEq s := by
  unfold stripTrailingEq
  rw [List.reverse_append, List.reverse_replicate]
  congr 1
  induction k with
  | zero => simp
  | succ n ih =>
      rw [List.replicate_succ, List.cons_append, List.dropWhile_cons]
      simp only [show (61 == 61) = true from rfl, if_true]
      exact ih

theorem stripTrailingEq_no_eq (s : List Nat) (h : ∀ c ∈ s, c ≠ 61) :
    stripTrailingEq s = s := by
  unfold stripTrailingEq
  rcases hr : s.reverse with _ | ⟨a, t⟩
  · simpa using congrArg List.reverse hr
  · have ha : a ∈ s := by
      rw [← List.mem_reverse, hr]; simp
    rw [List.dropWhile_cons, if_neg (by simpa using h a ha)]
    rw [← hr, List.reverse_reverse]

/-- Round trip of the repository's codec pair: decoding what `toBase64Url`
produced recovers the bytes exactly (for byte-valued input). -/
theorem decodeBase64Url_toBase64Url (b : List Nat) (h : ∀ a ∈ b, a < 256) :
    decodeBase64Url (toBase64Url b) = b := by
  have hlt := b64EncodeSextets_lt b h
  have hsub61 : subChar 61 = 61 := by decide
  have hnorm61 : normChar 61 = 61 := by decide
  have step1 : toBase64Url b = (b64EncodeSextets b).map (fun v => subChar (b64Char v)) := by
    unfold toBase64Url nodeB64EncodeStd
    rw [List.map_append, List.map_replicate, hsub61, List.map_map]
    rw [stripTrailingEq_append_replicate]
    refine stripTrailingEq_no_eq _ ?_
    intro c hc
    simp only [List.mem_map, Function.comp] at hc
    obtain ⟨v, hv, rfl⟩ := hc
    have hb := b64Val_b64Char v (hlt v hv)
    intro hc61
    exact hb.2 (by rw [hc61, hnorm61])
  rw [step1]
  unfold decodeBase64Url padTo4 nodeB64Decode
  rw [List.map_append, List.map_replicate, hnorm61, List.map_map]
  have hcomp : (normChar ∘ fun v => subChar (b64Char v)) = fun v => normChar (subChar (b64Char v)) := rfl
  rw [hcomp, collectSextets_encoded (b64EncodeSextets b) hlt]
  exact b64DecodeSextets_encode b h

/-! ### Authenticated envelope (crypto core, crypto.ts)

Modelled from the spec: the cipher suite is AES-256-GCM ("run AES-256 in GCM
mode with no associated data; output ciphertext and a 16-byte tag").  The AES
block permutation itself is platform code (Node's `crypto` module), not part of
this repository, so it is modelled as an arbitrary keyed block map `E`; the
GCM counter-mode structure (ciphertext = plaintext XOR keystream, tag = a
deterministic digest of key, iv and ciphertext, verified before any plaintext
is released) is modelled concretely, and every theorem quantifies over `E`. -/

/-- Clamp a block-map output to one 16-byte cipher block. -/
def block16 (l : List Nat) : List Nat :=
  (l.map (fun x => x % 256) ++ List.replicate 16 0).take 16

/-- Big-endian 4-byte counter, as appended to the 12-byte IV by GCM. -/
def ctr4 (n : Nat) : List Nat := [n / 16777216 % 256, n / 65536 % 256, n / 256 % 256, n % 256]

/-- XOR two byte lists pointwise (truncating to the shorter). -/
def xorBytes (a b : List Nat) : List Nat :=
  List.zipWith (fun x y => (x ^^^ y) % 256) a b

/-- Modelled from the spec: the GCM CTR keystream for `n` bytes of payload
(counter blocks start at 2; block 1 is reserved for the tag mask). -/
def gcmKeystream (E : List Nat → List Nat → List Nat) (key iv : List Nat) (n : Nat) : List Nat :=
  (((List.range (n / 16 + 1)).map (fun i => block16 (E key (iv ++ ctr4 (i + 2))))).flatten).take n

/-- Position-sensitive 16-byte digest of the ciphertext (GHASH stand-in). -/
def ctDigest (ct : List Nat) : List Nat :=
  (List.range 16).map (fun i => ((ct.drop i).foldl (fun a b => a + b) ct.length) % 256)

/-- Modelled from the spec: the 16-byte GCM authentication tag, a deterministic
function of key, iv and ciphertext (no associated data). -/
def gcmTag (E : List Nat → List Nat → List Nat) (key iv ct : List Nat) : List Nat :=
  xorBytes (block16 (E key (iv ++ ctr4 1))) (ctDigest ct)

/-- EncryptionResult from crypto.ts. -/
structure EncryptionResult where
  key : List Nat
  iv : List Nat
  tag : List Nat
  ciphertext : List Nat
deriving DecidableEq

/-- PayloadStructure from crypto.ts: the three base64url string fields. -/
structure PayloadStructure where
  iv : List Nat
  tag : List Nat
  ciphertext : List Nat
deriving DecidableEq

/-- StashTokenParts from crypto.ts. -/
structure StashTokenParts where
  id : List Nat
  key : List Nat
deriving DecidableEq

/-- encrypt from crypto.ts.  `randomBytes(KEY_LENGTH)` and
`randomBytes(IV_LENGTH)` are modelled by passing the fresh random `key` and
`iv` as inputs (their only property used is their length). -/
def encrypt (E : List Nat → List Nat → List Nat) (key iv secretBytes : List Nat) :
    EncryptionResult :=
  let ciphertext := xorBytes secretBytes (gcmKeystream E key iv secretBytes.length)
  { key := key, iv := iv, ciphertext := ciphertext, tag := gcmTag E key iv ciphertext }

/-- createPayload from crypto.ts. -/
def createPayload (r : EncryptionResult) : PayloadStructure :=
  { iv := toBase64Url r.iv, tag := toBase64Url r.tag, ciphertext := toBase64Url r.ciphertext }

/-- Errors thrown by decryptToBytes in crypto.ts. -/
inductive CryptoErr where
  | invalidKeyLength
  | invalidIvLength
  | invalidTagLength
  | authFailed
deriving DecidableEq

/-- decryptToBytes from crypto.ts, instrumented: the second component counts
invocations of the AES-GCM cipher (`createDecipheriv`/`update`/`final`).  The
key length is checked first, then the three fields are decoded, then iv and
tag lengths are checked, and only then is the cipher invoked; the cipher
verifies the tag and releases the plaintext only on a match. -/
def decryptToBytesT (E : List Nat → List Nat → List Nat) (payload : PayloadStructure)
    (key : List Nat) : Except CryptoErr (List Nat) × Nat :=
  if key.length ≠ KEY_LENGTH then (.error .invalidKeyLength, 0)
  else
    let iv := decodeBase64Url payload.iv
    let tag := decodeBase64Url payload.tag
    let ciphertext := decodeBase64Url payload.ciphertext
    if iv.length ≠ IV_LENGTH then (.error .invalidIvLength, 0)
    else if tag.length ≠ TAG_LENGTH then (.error .invalidTagLength, 0)
    else if gcmTag E key iv ciphertext = tag then
      (.ok (xorBytes ciphertext (gcmKeystream E key iv ciphertext.length)), 1)
    else (.error .authFailed, 1)

/-- decryptToBytes from crypto.ts (result only). -/
def decryptToBytes (E : List Nat → List Nat → List Nat) (payload : PayloadStructure)
    (key : List Nat) : Except CryptoErr (List Nat) :=
  (decryptToBytesT E payload key).1

/-- Errors thrown by decodeStashToken in crypto.ts. -/
inductive TokenErr where
  | missingColon
  | badKeyLen (expected got : Nat)
deriving DecidableEq

/-- The set of code units the JavaScript `String.prototype.trim` removes. -/
def isJsWs (c : Nat) : Bool :=
  c == 9 || c == 10 || c == 11 || c == 12 || c == 13 || c == 32 ||
  c == 160 || c == 8232 || c == 8233 || c == 65279

/-- JavaScript `trim`: drop whitespace from both ends. -/
def jsTrim (s : List Nat) : List Nat :=
  ((s.dropWhile isJsWs).reverse.dropWhile isJsWs).reverse

/-- decodeStashToken from crypto.ts: split on the first colon, trim both
parts, decode the key with `decodeBase64Url`, and reject only a wrong decoded
key length.  There is no UUID check here. -/
def decodeStashToken (token : List Nat) : Except TokenErr StashTokenParts :=
  match token.findIdx? (fun c => c == 58) with
  | none => .error .missingColon
  | some colonIndex =>
      let id := jsTrim (token.take colonIndex)
      let keyEncoded := jsTrim (token.drop (colonIndex + 1))
      let key := decodeBase64Url keyEncoded
      if key.length ≠ KEY_LENGTH then .error (.badKeyLen KEY_LENGTH key.length)
      else .ok { id := id, key := key }

theorem length_block16 (l : List Nat) : (block16 l).length = 16 := by
  simp [block16]

theorem mem_block16_lt (l : List Nat) : ∀ x ∈ block16 l, x < 256 := by
  intro x hx
  have hx' := List.mem_of_mem_take hx
  rcases List.mem_append.mp hx' with h | h
  · obtain ⟨a, _, rfl⟩ := List.mem_map.mp h
    exact Nat.mod_lt _ (by norm_num)
  · have := List.eq_of_mem_replicate h
    omega

theorem mem_xorBytes_lt (a b : List Nat) : ∀ x ∈ xorBytes a b, x < 256 := by
  intro x hx
  unfold xorBytes at hx
  rw [List.mem_iff_getElem] at hx
  obtain ⟨n, hlt, hn⟩ := hx
  rw [List.getElem_zipWith] at hn
  omega

theorem length_gcmKeystream (E : List Nat → List Nat → List Nat) (key iv : List Nat) (n : Nat) :
    (gcmKeystream E key iv n).length = n := by
  unfold gcmKeystream
  rw [List.length_take, List.length_flatten]
  have hmap : ((List.range (n / 16 + 1)).map
      (fun i => block16 (E key (iv ++ ctr4 (i + 2))))).map List.length =
      (List.range (n / 16 + 1)).map (fun _ => 16) := by
    rw [List.map_map]
    refine List.map_congr_left ?_
    intro i _
    exact length_block16 _
  rw [hmap, List.map_const', List.sum_replicate, List.length_range, smul_eq_mul]
  have := Nat.div_add_mod n 16
  have : n ≤ (n / 16 + 1) * 16 := by omega
  omega

theorem mem_gcmKeystream_lt (E : List Nat → List Nat → List Nat) (key iv : List Nat) (n : Nat) :
    ∀ x ∈ gcmKeystream E key iv n, x < 256 := by
  intro x hx
  unfold gcmKeystream at hx
  have hx' := List.mem_of_mem_take hx
  rw [List.mem_flatten] at hx'
  obtain ⟨l, hl, hxl⟩ := hx'
  obtain ⟨i, _, rfl⟩ := List.mem_map.mp hl
  exact mem_block16_lt _ x hxl

theorem length_ctDigest (ct : List Nat) : (ctDigest ct).length = 16 := by
  simp [ctDigest]

theorem length_gcmTag (E : List Nat → List Nat → List Nat) (key iv ct : List Nat) :
    (gcmTag E key iv ct).length = 16 := by
  unfold gcmTag xorBytes
  rw [List.length_zipWith, length_block16, length_ctDigest]
  simp

theorem mem_gcmTag_lt (E : List Nat → List Nat → List Nat) (key iv ct : List Nat) :
    ∀ x ∈ gcmTag E key iv ct, x < 256 := by
  unfold gcmTag
  exact mem_xorBytes_lt _ _

theorem length_xorBytes (a b : List Nat) :
    (xorBytes a b).length = min a.length b.length := by
  simp [xorBytes]

theorem xorBytes_xorBytes (s ks : List Nat) (hs : ∀ x ∈ s, x < 256)
    (hks : ∀ x ∈ ks, x < 256) (hlen : s.length ≤ ks.length) :
    xorBytes (xorBytes s ks) ks = s := by
  induction s generalizing ks with
  | nil => simp [xorBytes]
  | cons a t ih =>
      cases ks with
      | nil => simp at hlen
      | cons b u =>
          have ha : a < 256 := hs a (by simp)
          have hb : b < 256 := hks b (by simp)
          have hxor : a ^^^ b < 256 := by
            have h8 := Nat.xor_lt_two_pow (show a < 2 ^ 8 by omega) (show b < 2 ^ 8 by omega)
            omega
          unfold xorBytes
          simp only [List.zipWith_cons_cons]
          rw [Nat.mod_eq_of_lt hxor]
          have helt : (a ^^^ b ^^^ b) % 256 = a := by
            rw [Nat.xor_assoc, Nat.xor_self, Nat.xor_zero]
            exact Nat.mod_eq_of_lt ha
          rw [helt]
          have ht := ih u (fun x hx => hs x (by simp [hx])) (fun x hx => hks x (by simp [hx]))
            (by simp at hlen ⊢; omega)
          unfold xorBytes at ht
          rw [ht]

/-- Claim C1: for every byte string `s` with `1 <= len(s) <= 4096`, encrypting
`s`, serializing with `createPayload`, and decrypting that payload with the key
returned by the same `encrypt` call yields `s` back (`decrypt` then returns the
UTF-8 reading of exactly these bytes).  Quantified over the AES-256 block map
`E` and over the fresh random `key`/`iv` of the correct lengths. -/
theorem c1_encrypt_roundtrip (E : List Nat → List Nat → List Nat) (key iv s : List Nat)
    (hkey : key.length = KEY_LENGTH) (hiv : iv.length = IV_LENGTH)
    (hivb : ∀ x ∈ iv, x < 256) (hs : ∀ x ∈ s, x < 256)
    (_hlen1 : 1 ≤ s.length) (_hlen2 : s.length ≤ 4096) :
    decryptToBytes E (createPayload (encrypt E key iv s)) key = .ok s := by
  have hks := length_gcmKeystream E key iv s.length
  have hctl : (xorBytes s (gcmKeystream E key iv s.length)).length = s.length := by
    rw [length_xorBytes, hks, Nat.min_self]
  have hctb := mem_xorBytes_lt s (gcmKeystream E key iv s.length)
  have htagb := mem_gcmTag_lt E key iv (xorBytes s (gcmKeystream E key iv s.length))
  have htagl := length_gcmTag E key iv (xorBytes s (gcmKeystream E key iv s.length))
  have hdiv : decodeBase64Url (toBase64Url iv) = iv := decodeBase64Url_toBase64Url iv hivb
  have hdtag := decodeBase64Url_toBase64Url _ htagb
  have hdct := decodeBase64Url_toBase64Url _ hctb
  unfold decryptToBytes decryptToBytesT createPayload encrypt
  simp only [hdiv, hdtag, hdct, hkey, hiv, htagl, hctl]
  norm_num [KEY_LENGTH, IV_LENGTH, TAG_LENGTH]
  exact xorBytes_xorBytes s (gcmKeystream E key iv s.length) hs
    (mem_gcmKeystream_lt E key iv s.length) (le_of_eq hks.symm)

/-- Witness for C1 at a concrete input: block map constantly `[]`, zero key and
iv, plaintext the bytes of `"hi"`. -/
theorem c1_encrypt_roundtrip_witness :
    decryptToBytes (fun _ _ => []) (createPayload (encrypt (fun _ _ => [])
      (List.replicate 32 0) (List.replicate 12 0) (toCodes "hi")))
      (List.replicate 32 0) = .ok (toCodes "hi") :=
  c1_encrypt_roundtrip (fun _ _ => []) (List.replicate 32 0) (List.replicate 12 0)
    (toCodes "hi") (by decide) (by decide) (by decide) (by decide) (by decide) (by decide)

/-- Claim C2: `decryptToBytes` rejects a key that is not exactly 32 bytes with
the key-length error before any cipher operation; with a 32-byte key it decodes
iv, tag and ciphertext and rejects a decoded iv that is not 12 bytes with the
IV-length error, then a decoded tag that is not 16 bytes with the tag-length
error, in each case before invoking AES-GCM decryption (cipher-invocation
count 0). -/
theorem c2_decrypt_length_checks (E : List Nat → List Nat → List Nat)
    (payload : PayloadStructure) (key : List Nat) :
    (key.length ≠ 32 → decryptToBytesT E payload key = (.error .invalidKeyLength, 0)) ∧
    (key.length = 32 → (decodeBase64Url payload.iv).length ≠ 12 →
      decryptToBytesT E payload key = (.error .invalidIvLength, 0)) ∧
    (key.length = 32 → (decodeBase64Url payload.iv).length = 12 →
      (decodeBase64Url payload.tag).length ≠ 16 →
      decryptToBytesT E payload key = (.error .invalidTagLength, 0)) := by
  refine ⟨?_, ?_, ?_⟩
  · intro hk
    unfold decryptToBytesT
    rw [if_pos (by simpa [KEY_LENGTH] using hk)]
  · intro hk hiv
    unfold decryptToBytesT
    rw [if_neg (by simp [KEY_LENGTH, hk])]
    simp only [IV_LENGTH]
    rw [if_pos hiv]
  · intro hk hiv htag
    unfold decryptToBytesT
    rw [if_neg (by simp [KEY_LENGTH, hk])]
    simp only [IV_LENGTH, TAG_LENGTH]
    rw [if_neg (by simp [hiv]), if_pos htag]

/-- Witness for C2 at concrete inputs: a 31-byte key is rejected with the
key-length error; with a 32-byte key and a payload whose iv field decodes to 3
bytes, the IV-length error is produced; in both cases with no cipher call. -/
theorem c2_decrypt_length_checks_witness :
    decryptToBytesT (fun _ _ => []) ⟨toCodes "AAAA", toCodes "AAAA", toCodes "AAAA"⟩
      (List.replicate 31 0) = (.error .invalidKeyLength, 0) ∧
    decryptToBytesT (fun _ _ => []) ⟨toCodes "AAAA", toCodes "AAAA", toCodes "AAAA"⟩
      (List.replicate 32 0) = (.error .invalidIvLength, 0) :=
  ⟨(c2_decrypt_length_checks (fun _ _ => []) ⟨toCodes "AAAA", toCodes "AAAA", toCodes "AAAA"⟩
      (List.replicate 31 0)).1 (by decide),
   (c2_decrypt_length_checks (fun _ _ => []) ⟨toCodes "AAAA", toCodes "AAAA", toCodes "AAAA"⟩
      (List.replicate 32 0)).2.1 (by decide) (by decide)⟩

/-! ### Stash-token grammar (validation.ts) -/

/-- Case-insensitive hex digit `[0-9a-f]` under the regex `i` flag. -/
def isHexI (c : Nat) : Bool :=
  (48 ≤ c && c ≤ 57) || (97 ≤ c && c ≤ 102) || (65 ≤ c && c ≤ 70)

/-- Expected character at position `i` of the 36-character UUID v4 shape
`[0-9a-f]{8}-[0-9a-f]{4}-4[0-9a-f]{3}-[89ab][0-9a-f]{3}-[0-9a-f]{12}`
(case-insensitive). -/
def uuidCharOk (i c : Nat) : Bool :=
  if i == 8 || i == 13 || i == 18 || i == 23 then c == 45
  else if i == 14 then c == 52
  else if i == 19 then c == 56 || c == 57 || c == 97 || c == 98 || c == 65 || c == 66
  else isHexI c

/-- Anchored match of UUID_REGEX. -/
def uuidShape (s : List Nat) : Bool :=
  s.length == 36 && (List.range 36).all (fun i => uuidCharOk i (s.getD i 0))

/-- validateUUID from validation.ts. -/
def validateUUID (s : List Nat) : Bool := uuidShape s

/-- Character class `[A-Za-z0-9+/=_-]` of the key part of STASH_FORMAT_REGEX. -/
def isTokenKeyChar (c : Nat) : Bool :=
  (65 ≤ c && c ≤ 90) || (97 ≤ c && c ≤ 122) || (48 ≤ c && c ≤ 57) ||
  c == 43 || c == 47 || c == 61 || c == 45 || c == 95

/-- Anchored match of BASE64_REGEX
`^(?:[A-Za-z0-9+/]{4})*(?:[A-Za-z0-9+/]{2}==|[A-Za-z0-9+/]{3}=)?$`: groups of
four standard characters, optionally ended by a two-pad or one-pad tail (the
alternatives are mutually exclusive, so this deterministic matcher is
equivalent to the backtracking regex). -/
def matchB64Std : List Nat → Bool
  | [] => true
  | a :: b :: c :: d :: rest =>
      if isB64StdChar a && isB64StdChar b then
        if isB64StdChar c && isB64StdChar d then matchB64Std rest
        else if isB64StdChar c && d == 61 && rest.isEmpty then true
        else if c == 61 && d == 61 && rest.isEmpty then true
        else false
      else false
  | _ => false

/-- validateBase64 from validation.ts: nonempty, and either pure base64url
(BASE64URL_REGEX) or standard base64 (BASE64_REGEX) of length a multiple of
four. -/
def validateBase64 (input : List Nat) : Bool :=
  if input.isEmpty then false
  else if input.all isB64UrlChar then true
  else if !matchB64Std input then false
  else input.length % 4 == 0

/-- decodedLenB64Any from validation.ts: decoded byte length of a
base64/base64url string, computed without decoding; `-1` marks an invalid
padded length. -/
def decodedLenB64Any (s : List Nat) : Int :=
  let len := s.length
  if s.contains 61 then
    let padChars : Int :=
      if [61, 61].isSuffixOf s then 2 else if [61].isSuffixOf s then 1 else 0
    if len % 4 ≠ 0 then -1
    else (len / 4 : Int) * 3 - padChars
  else
    let m := len % 4
    let addPad := if m == 0 then 0 else 4 - m
    (((len + addPad) * 3 / 4 : Nat) : Int) - (addPad : Int)

/-- Anchored match of STASH_FORMAT_REGEX
`^(<uuidv4>):([A-Za-z0-9+/=_-]+)$` (case-insensitive UUID), returning the two
capture groups.  The UUID part has fixed width 36, so the match is
deterministic. -/
def stashMatch (s : List Nat) : Option (List Nat × List Nat) :=
  if uuidShape (s.take 36) then
    match s.drop 36 with
    | 58 :: key => if !key.isEmpty && key.all isTokenKeyChar then some (s.take 36, key) else none
    | _ => none
  else none

/-- Error results of validateAndParseStashFormat in validation.ts. -/
inductive StashErr where
  | emptyToken
  | missingColon
  | invalidUuid
  | missingKey
  | invalidTokenFmt
  | invalidB64Key
  | badKeyLength
  | malformedKey
deriving DecidableEq

/-- StashParseResult from validation.ts. -/
inductive StashParseResult where
  | success (id key : List Nat)
  | failure (error : StashErr)
deriving DecidableEq

/-- validateAndParseStashFormat from validation.ts, instrumented: the second
component counts actual base64 decodes (`Buffer.from`).  On a regex match the
key is re-validated with `validateBase64`, then fast-rejected by
`decodedLenB64Any` if its decoded length is not exactly `KEY_LENGTH`, and only
then decoded (Node's decoder never throws, so the catch branch producing the
`malformedKey` error is dead). -/
def validateAndParseStashFormatT (input : List Nat) : StashParseResult × Nat :=
  let s := jsTrim input
  if s.isEmpty then (.failure .emptyToken, 0)
  else match stashMatch s with
  | some (id, key) =>
      if !validateBase64 key then (.failure .invalidB64Key, 0)
      else if decodedLenB64Any key ≠ (KEY_LENGTH : Int) then (.failure .badKeyLength, 0)
      else (.success id key, 1)
  | none =>
      if !s.contains 58 then (.failure .missingColon, 0)
      else
        let id := s.takeWhile (fun c => !(c == 58))
        let key := (s.drop (id.length + 1)).takeWhile (fun c => !(c == 58))
        if !validateUUID id then (.failure .invalidUuid, 0)
        else if key.isEmpty then (.failure .missingKey, 0)
        else (.failure .invalidTokenFmt, 0)

/-- validateAndParseStashFormat (result only). -/
def validateAndParseStashFormat (input : List Nat) : StashParseResult :=
  (validateAndParseStashFormatT input).1

/-! ### Wire payload serializer (parsePayload, crypto.ts)

`JSON.parse` itself is platform code; its output is modelled by `JValue`, the
type of parsed JSON values under JavaScript semantics (an object's duplicate
keys are already collapsed with last-occurrence-wins, which `getField` models
by searching from the right). -/

/-- A parsed JSON value. -/
inductive JValue where
  | jnull
  | jbool (b : Bool)
  | jnum (q : ℚ)
  | jstr (s : List Nat)
  | jarr (elems : List JValue)
  | jobj (fields : List (List Nat × JValue))

/-- JavaScript truthiness of a parsed JSON value (`!parsed`). -/
def isTruthy : JValue → Bool
  | .jnull => false
  | .jbool b => b
  | .jnum q => !(q == 0)
  | .jstr s => !s.isEmpty
  | .jarr _ => true
  | .jobj _ => true

/-- JavaScript `typeof parsed === 'object'`: true for null, arrays and
objects. -/
def typeofIsObject : JValue → Bool
  | .jnull => true
  | .jarr _ => true
  | .jobj _ => true
  | _ => false

/-- JavaScript `field in parsed` for parsed JSON (JSON arrays carry no string
field named `iv`/`tag`/`ciphertext`). -/
def fieldMem (v : JValue) (name : List Nat) : Bool :=
  match v with
  | .jobj fields => fields.any (fun kv => kv.1 == name)
  | _ => false

/-- JavaScript `parsed[field]` (last occurrence wins). -/
def getField (v : JValue) (name : List Nat) : Option JValue :=
  match v with
  | .jobj fields => (fields.reverse.find? (fun kv => kv.1 == name)).map (fun kv => kv.2)
  | _ => none

/-- Errors thrown by parsePayload / validateBase64AndGetLength in crypto.ts. -/
inductive PayloadErr where
  | fieldEmpty
  | badB64Format
  | badLength (expected got : Nat)
  | notAnObject
  | missingField (name : List Nat)
  | notAString (name : List Nat)
  | emptyCiphertext
deriving DecidableEq

/-- validateBase64AndGetLength from crypto.ts: reject an empty field, reject a
character outside `[A-Za-z0-9_-]`, then compute the decoded length without
decoding (pad the length up to a multiple of four, take `floor(padded*3/4)`
minus the added padding) and compare it with the expected length if one was
given.  It makes no decode and no cipher call. -/
def validateBase64AndGetLength (input : List Nat) (expectedLength : Option Nat) :
    Except PayloadErr Nat :=
  if input.isEmpty then .error .fieldEmpty
  else if !input.all isB64UrlChar then .error .badB64Format
  else
    let paddedLength := input.length + (4 - input.length % 4) % 4
    let decodedLength := paddedLength * 3 / 4 - (paddedLength - input.length)
    match expectedLength with
    | some e => if decodedLength ≠ e then .error (.badLength e decodedLength) else .ok decodedLength
    | none => .ok decodedLength

/-- Field-presence and string-type check of parsePayload's field loop. -/
def fieldCheck (v : JValue) (name : List Nat) : Except PayloadErr (List Nat) :=
  if !fieldMem v name then .error (.missingField name)
  else match getField v name with
    | some (.jstr s) => .ok s
    | _ => .error (.notAString name)

/-- parsePayload from crypto.ts (after `JSON.parse`), instrumented: the second
component counts decode/cipher invocations, of which parsePayload performs
none.  Field names are given as code-unit lists of `iv`, `tag`,
`ciphertext`. -/
def parsePayloadT (v : JValue) : Except PayloadErr PayloadStructure × Nat :=
  if !(isTruthy v) || !(typeofIsObject v) then (.error .notAnObject, 0)
  else match fieldCheck v (toCodes "iv") with
  | .error e => (.error e, 0)
  | .ok ivs =>
    match fieldCheck v (toCodes "tag") with
    | .error e => (.error e, 0)
    | .ok tags =>
      match fieldCheck v (toCodes "ciphertext") with
      | .error e => (.error e, 0)
      | .ok cts =>
        match validateBase64AndGetLength ivs (some IV_LENGTH) with
        | .error e => (.error e, 0)
        | .ok _ =>
          match validateBase64AndGetLength tags (some TAG_LENGTH) with
          | .error e => (.error e, 0)
          | .ok _ =>
            match validateBase64AndGetLength cts none with
            | .error e => (.error e, 0)
            | .ok ciphertextLength =>
              if ciphertextLength == 0 then (.error .emptyCiphertext, 0)
              else (.ok { iv := ivs, tag := tags, ciphertext := cts }, 0)

/-- parsePayload (result only). -/
def parsePayload (v : JValue) : Except PayloadErr PayloadStructure := (parsePayloadT v).1

theorem urlChar_normVal (c : Nat) (h : isB64UrlChar c = true) :
    normChar c ≠ 61 ∧ (b64Val (normChar c)).isSome = true := by
  simp only [isB64UrlChar, Bool.or_eq_true, Bool.and_eq_true, decide_eq_true_eq,
    beq_iff_eq] at h
  unfold normChar b64Val
  constructor
  · split_ifs <;> omega
  · split_ifs <;> simp_all
    omega

theorem collectSextets_all_valid (s : List Nat)
    (h : ∀ c ∈ s, (b64Val c).isSome = true ∧ c ≠ 61) (k : Nat) :
    (collectSextets (s ++ List.replicate k 61)).length = s.length := by
  induction s with
  | nil => simp [collectSextets_replicate_eq]
  | cons c rest ih =>
      have hc := h c (by simp)
      rcases hv : b64Val c with _ | v
      · rw [hv] at hc; simp at hc
      · simp only [List.cons_append, collectSextets]
        rw [if_neg (by simpa using hc.2), hv]
        simpa using ih (fun x hx => h x (by simp [hx]))

theorem length_b64DecodeSextets : ∀ vs : List Nat,
    (b64DecodeSextets vs).length = vs.length * 3 / 4 := by
  intro vs
  induction vs using b64DecodeSextets.induct with
  | case1 a b c d rest ih =>
      simp only [b64DecodeSextets, List.length_cons, ih]
      omega
  | case2 a b => simp [b64DecodeSextets]
  | case3 a b c => simp [b64DecodeSextets]
  | case4 l h1 h2 h3 =>
      rcases l with _ | ⟨a, _ | ⟨b, _ | ⟨c, _ | ⟨d, rest⟩⟩⟩⟩
      · simp [b64DecodeSextets]
      · simp [b64DecodeSextets]
      · exact absurd rfl (h2 a b)
      · exact absurd rfl (h3 a b c)
      · exact absurd rfl (h1 a b c d rest)

theorem length_decodeBase64Url_valid (s : List Nat) (h : s.all isB64UrlChar = true) :
    (decodeBase64Url s).length = s.length * 3 / 4 := by
  unfold decodeBase64Url padTo4 nodeB64Decode
  rw [List.map_append, List.map_replicate, show normChar 61 = 61 from rfl]
  rw [length_b64DecodeSextets]
  have hvalid : ∀ c ∈ s.map normChar, (b64Val c).isSome = true ∧ c ≠ 61 := by
    intro c hc
    obtain ⟨x, hx, rfl⟩ := List.mem_map.mp hc
    have := urlChar_normVal x (by rw [List.all_eq_true] at h; exact h x hx)
    exact ⟨this.2, this.1⟩
  rw [collectSextets_all_valid _ hvalid, List.length_map]

theorem decLenArith (n : Nat) :
    (n + (4 - n % 4) % 4) * 3 / 4 - ((n + (4 - n % 4) % 4) - n) = n * 3 / 4 := by
  omega

theorem decLenArith2 (n : Nat) :
    (n + (4 - n % 4) % 4) * 3 / 4 - (4 - n % 4) % 4 = n * 3 / 4 := by
  omega

theorem getField_some_fieldMem {v : JValue} {n : List Nat} {x : JValue}
    (h : getField v n = some x) : fieldMem v n = true := by
  cases v <;> simp [getField] at h
  case jobj fields =>
    obtain ⟨kv, hfind⟩ := h
    have hmem := List.mem_of_find?_eq_some hfind
    have hpred := List.find?_some hfind
    unfold fieldMem
    rw [List.any_eq_true]
    exact ⟨(kv, x), List.mem_reverse.mp hmem, hpred⟩

theorem fieldCheck_missing {v : JValue} {n : List Nat} (h : fieldMem v n = false) :
    fieldCheck v n = .error (.missingField n) := by
  unfold fieldCheck
  rw [h]
  simp

theorem fieldCheck_ok {v : JValue} {n : List Nat} {s : List Nat}
    (h : getField v n = some (.jstr s)) : fieldCheck v n = .ok s := by
  unfold fieldCheck
  rw [getField_some_fieldMem h, h]
  simp

theorem fieldCheck_type {v : JValue} {n : List Nat} {j : JValue}
    (h : getField v n = some j) (hj : ∀ s, j ≠ .jstr s) :
    fieldCheck v n = .error (.notAString n) := by
  unfold fieldCheck
  rw [getField_some_fieldMem h, h]
  cases j <;> simp
  case jstr s => exact absurd rfl (hj s)

theorem fieldCheck_ok_iff {v : JValue} {n : List Nat} {s : List Nat} :
    fieldCheck v n = .ok s ↔ getField v n = some (.jstr s) := by
  constructor
  · intro h
    unfold fieldCheck at h
    by_cases hm : fieldMem v n
    · rw [hm] at h
      simp only [Bool.not_true, Bool.false_eq_true, if_false] at h
      rcases hg : getField v n with _ | j
      · rw [hg] at h; simp at h
      · rw [hg] at h
        cases j <;> simp_all
    · rw [show fieldMem v n = false from by simpa using hm] at h
      simp at h
  · exact fieldCheck_ok

theorem validateB64_ok_intro (s : List Nat) (hne : s ≠ [])
    (hall : s.all isB64UrlChar = true) (e : Option Nat)
    (he : e = none ∨ e = some (s.length * 3 / 4)) :
    validateBase64AndGetLength s e = .ok (s.length * 3 / 4) := by
  unfold validateBase64AndGetLength
  rw [if_neg (by simpa using hne), if_neg (by simp [hall])]
  rcases he with rfl | rfl
  · simp [decLenArith2]
  · simp [decLenArith2]

theorem validateB64_ok_elim (s : List Nat) (e : Option Nat) (n : Nat)
    (h : validateBase64AndGetLength s e = .ok n) :
    s ≠ [] ∧ s.all isB64UrlChar = true ∧ n = s.length * 3 / 4 ∧ (e = none ∨ e = some n) := by
  unfold validateBase64AndGetLength at h
  by_cases h1 : s.isEmpty
  · rw [if_pos h1] at h; simp at h
  · rw [if_neg h1] at h
    by_cases h2 : s.all isB64UrlChar
    · rw [if_neg (by simp [h2])] at h
      refine ⟨by simpa using h1, h2, ?_⟩
      rcases e with _ | k
      · dsimp only at h
        rw [decLenArith s.length] at h
        simp only [Except.ok.injEq] at h
        exact ⟨h.symm, Or.inl rfl⟩
      · dsimp only at h
        rw [decLenArith s.length] at h
        by_cases h3 : s.length * 3 / 4 ≠ k
        · rw [if_pos h3] at h; simp at h
        · rw [if_neg h3] at h
          simp only [Except.ok.injEq] at h
          refine ⟨h.symm, Or.inr ?_⟩
          have hk : s.length * 3 / 4 = k := by omega
          rw [← h, hk]
    · rw [show s.all isB64UrlChar = false from by simpa using h2] at h
      simp at h

theorem validateB64_badLength (s : List Nat) (hne : s ≠ [])
    (hall : s.all isB64UrlChar = true) (e : Nat) (hne2 : s.length * 3 / 4 ≠ e) :
    validateBase64AndGetLength s (some e) = .error (.badLength e (s.length * 3 / 4)) := by
  unfold validateBase64AndGetLength
  rw [if_neg (by simpa using hne), if_neg (by simp [hall])]
  dsimp only
  rw [decLenArith s.length]
  rw [if_pos hne2]

/-- Claim C3: `parsePayload` (after `JSON.parse`) accepts a parsed value iff it
is a truthy JavaScript object with the three fields `iv`, `tag`, `ciphertext`
present as strings, `iv` decoding to exactly 12 bytes, `tag` to exactly 16 and
`ciphertext` to at least 1 byte; each violation produces its own distinct error
(not-an-object, missing field, wrong type, wrong length, empty ciphertext) and
the validation performs no decode or cipher call (instrumented count 0). -/
theorem c3_parsePayload_validation (v : JValue) :
    ((∃ p, parsePayload v = .ok p) ↔
      (isTruthy v = true ∧ typeofIsObject v = true ∧
       ∃ si st sc,
         getField v (toCodes "iv") = some (.jstr si) ∧
         getField v (toCodes "tag") = some (.jstr st) ∧
         getField v (toCodes "ciphertext") = some (.jstr sc) ∧
         si.all isB64UrlChar = true ∧ (decodeBase64Url si).length = IV_LENGTH ∧
         st.all isB64UrlChar = true ∧ (decodeBase64Url st).length = TAG_LENGTH ∧
         sc.all isB64UrlChar = true ∧ 1 ≤ (decodeBase64Url sc).length)) ∧
    (¬(isTruthy v = true ∧ typeofIsObject v = true) →
       parsePayload v = .error .notAnObject) ∧
    (isTruthy v = true → typeofIsObject v = true →
       fieldMem v (toCodes "iv") = false →
       parsePayload v = .error (.missingField (toCodes "iv"))) ∧
    (isTruthy v = true → typeofIsObject v = true →
       ∀ j, getField v (toCodes "iv") = some j → (∀ s, j ≠ .jstr s) →
       parsePayload v = .error (.notAString (toCodes "iv"))) ∧
    (isTruthy v = true → typeofIsObject v = true →
       ∀ si, getField v (toCodes "iv") = some (.jstr si) →
       fieldMem v (toCodes "tag") = false →
       parsePayload v = .error (.missingField (toCodes "tag"))) ∧
    (isTruthy v = true → typeofIsObject v = true →
       ∀ si, getField v (toCodes "iv") = some (.jstr si) →
       ∀ j, getField v (toCodes "tag") = some j → (∀ s, j ≠ .jstr s) →
       parsePayload v = .error (.notAString (toCodes "tag"))) ∧
    (isTruthy v = true → typeofIsObject v = true →
       ∀ si st, getField v (toCodes "iv") = some (.jstr si) →
       getField v (toCodes "tag") = some (.jstr st) →
       fieldMem v (toCodes "ciphertext") = false →
       parsePayload v = .error (.missingField (toCodes "ciphertext"))) ∧
    (isTruthy v = true → typeofIsObject v = true →
       ∀ si st, getField v (toCodes "iv") = some (.jstr si) →
       getField v (toCodes "tag") = some (.jstr st) →
       ∀ j, getField v (toCodes "ciphertext") = some j → (∀ s, j ≠ .jstr s) →
       parsePayload v = .error (.notAString (toCodes "ciphertext"))) ∧
    (isTruthy v = true → typeofIsObject v = true →
       ∀ si st sc, getField v (toCodes "iv") = some (.jstr si) →
       getField v (toCodes "tag") = some (.jstr st) →
       getField v (toCodes "ciphertext") = some (.jstr sc) →
       si ≠ [] → si.all isB64UrlChar = true → si.length * 3 / 4 ≠ IV_LENGTH →
       parsePayload v = .error (.badLength IV_LENGTH (si.length * 3 / 4))) ∧
    (isTruthy v = true → typeofIsObject v = true →
       ∀ si st sc, getField v (toCodes "iv") = some (.jstr si) →
       getField v (toCodes "tag") = some (.jstr st) →
       getField v (toCodes "ciphertext") = some (.jstr sc) →
       si ≠ [] → si.all isB64UrlChar = true → si.length * 3 / 4 = IV_LENGTH →
       st ≠ [] → st.all isB64UrlChar = true → st.length * 3 / 4 ≠ TAG_LENGTH →
       parsePayload v = .error (.badLength TAG_LENGTH (st.length * 3 / 4))) ∧
    (isTruthy v = true → typeofIsObject v = true →
       ∀ si st sc, getField v (toCodes "iv") = some (.jstr si) →
       getField v (toCodes "tag") = some (.jstr st) →
       getField v (toCodes "ciphertext") = some (.jstr sc) →
       si ≠ [] → si.all isB64UrlChar = true → si.length * 3 / 4 = IV_LENGTH →
       st ≠ [] → st.all isB64UrlChar = true → st.length * 3 / 4 = TAG_LENGTH →
       sc ≠ [] → sc.all isB64UrlChar = true → sc.length * 3 / 4 = 0 →
       parsePayload v = .error .emptyCiphertext) ∧
    ((parsePayloadT v).2 = 0) := by
  have hcond : ∀ (h1 : isTruthy v = true) (h2 : typeofIsObject v = true),
      ¬((!(isTruthy v) || !(typeofIsObject v)) = true) := by
    intro h1 h2
    rw [h1, h2]
    simp
  refine ⟨⟨?_, ?_⟩, ?_, ?_, ?_, ?_, ?_, ?_, ?_, ?_, ?_, ?_, ?_⟩
  · -- accept implies shape
    rintro ⟨p, hp⟩
    unfold parsePayload parsePayloadT at hp
    by_cases h1 : (!(isTruthy v) || !(typeofIsObject v)) = true
    · rw [if_pos h1] at hp; simp at hp
    · rw [if_neg h1] at hp
      have hto : isTruthy v = true ∧ typeofIsObject v = true := by simpa using h1
      rcases hiv : fieldCheck v (toCodes "iv") with e | si
      · rw [hiv] at hp; simp at hp
      · rw [hiv] at hp; dsimp only at hp
        rcases htg : fieldCheck v (toCodes "tag") with e | st
        · rw [htg] at hp; simp at hp
        · rw [htg] at hp; dsimp only at hp
          rcases hct : fieldCheck v (toCodes "ciphertext") with e | sc
          · rw [hct] at hp; simp at hp
          · rw [hct] at hp; dsimp only at hp
            rcases hvi : validateBase64AndGetLength si (some IV_LENGTH) with e | ni
            · rw [hvi] at hp; simp at hp
            · rw [hvi] at hp; dsimp only at hp
              rcases hvt : validateBase64AndGetLength st (some TAG_LENGTH) with e | nt
              · rw [hvt] at hp; simp at hp
              · rw [hvt] at hp; dsimp only at hp
                rcases hvc : validateBase64AndGetLength sc none with e | nc
                · rw [hvc] at hp; simp at hp
                · rw [hvc] at hp; dsimp only at hp
                  obtain ⟨hne1, hall1, hn1, he1⟩ := validateB64_ok_elim _ _ _ hvi
                  obtain ⟨hne2, hall2, hn2, he2⟩ := validateB64_ok_elim _ _ _ hvt
                  obtain ⟨hne3, hall3, hn3, he3⟩ := validateB64_ok_elim _ _ _ hvc
                  by_cases hz : (nc == 0) = true
                  · rw [if_pos hz] at hp; simp at hp
                  · rw [if_neg hz] at hp
                    refine ⟨hto.1, hto.2, si, st, sc,
                      fieldCheck_ok_iff.mp hiv, fieldCheck_ok_iff.mp htg,
                      fieldCheck_ok_iff.mp hct, hall1, ?_, hall2, ?_, hall3, ?_⟩
                    · rw [length_decodeBase64Url_valid si hall1, ← hn1]
                      rcases he1 with h | h
                      · simp at h
                      · simpa using h.symm
                    · rw [length_decodeBase64Url_valid st hall2, ← hn2]
                      rcases he2 with h | h
                      · simp at h
                      · simpa using h.symm
                    · rw [length_decodeBase64Url_valid sc hall3, ← hn3]
                      have : nc ≠ 0 := by simpa using hz
                      omega
  · -- shape implies accept
    rintro ⟨ht, ho, si, st, sc, hgi, hgt, hgc, hall1, hl1, hall2, hl2, hall3, hl3⟩
    have hne1 : si ≠ [] := by
      intro h; rw [h] at hl1; exact absurd hl1 (by decide)
    have hne2 : st ≠ [] := by
      intro h; rw [h] at hl2; exact absurd hl2 (by decide)
    have hne3 : sc ≠ [] := by
      intro h; rw [h] at hl3; exact absurd hl3 (by decide)
    have hd1 : si.length * 3 / 4 = IV_LENGTH := by
      rw [← length_decodeBase64Url_valid si hall1]; exact hl1
    have hd2 : st.length * 3 / 4 = TAG_LENGTH := by
      rw [← length_decodeBase64Url_valid st hall2]; exact hl2
    have hd3 : 1 ≤ sc.length * 3 / 4 := by
      rw [← length_decodeBase64Url_valid sc hall3]; exact hl3
    have hvi := validateB64_ok_intro si hne1 hall1 (some IV_LENGTH) (Or.inr (by rw [hd1]))
    have hvt := validateB64_ok_intro st hne2 hall2 (some TAG_LENGTH) (Or.inr (by rw [hd2]))
    have hvc := validateB64_ok_intro sc hne3 hall3 none (Or.inl rfl)
    unfold parsePayload parsePayloadT
    rw [if_neg (hcond ht ho), fieldCheck_ok hgi]
    dsimp only
    rw [fieldCheck_ok hgt]
    dsimp only
    rw [fieldCheck_ok hgc]
    dsimp only
    rw [hvi]
    dsimp only
    rw [hvt]
    dsimp only
    rw [hvc]
    dsimp only
    rw [if_neg (by simp; omega)]
    exact ⟨_, rfl⟩
  · -- not an object
    intro h
    have h1 : (!(isTruthy v) || !(typeofIsObject v)) = true := by
      by_cases ha : isTruthy v
      · by_cases hb : typeofIsObject v
        · exact absurd ⟨ha, hb⟩ h
        · simp [hb]
      · simp [ha]
    unfold parsePayload parsePayloadT
    rw [if_pos h1]
  · -- missing iv
    intro ht ho hm
    unfold parsePayload parsePayloadT
    rw [if_neg (hcond ht ho), fieldCheck_missing hm]
  · -- iv not a string
    intro ht ho j hj hns
    unfold parsePayload parsePayloadT
    rw [if_neg (hcond ht ho), fieldCheck_type hj hns]
  · -- missing tag
    intro ht ho si hgi hm
    unfold parsePayload parsePayloadT
    rw [if_neg (hcond ht ho), fieldCheck_ok hgi]
    dsimp only
    rw [fieldCheck_missing hm]
  · -- tag not a string
    intro ht ho si hgi j hj hns
    unfold parsePayload parsePayloadT
    rw [if_neg (hcond ht ho), fieldCheck_ok hgi]
    dsimp only
    rw [fieldCheck_type hj hns]
  · -- missing ciphertext
    intro ht ho si st hgi hgt hm
    unfold parsePayload parsePayloadT
    rw [if_neg (hcond ht ho), fieldCheck_ok hgi]
    dsimp only
    rw [fieldCheck_ok hgt]
    dsimp only
    rw [fieldCheck_missing hm]
  · -- ciphertext not a string
    intro ht ho si st hgi hgt j hj hns
    unfold parsePayload parsePayloadT
    rw [if_neg (hcond ht ho), fieldCheck_ok hgi]
    dsimp only
    rw [fieldCheck_ok hgt]
    dsimp only
    rw [fieldCheck_type hj hns]
  · -- iv wrong length
    intro ht ho si st sc hgi hgt hgc hne hall hlen
    unfold parsePayload parsePayloadT
    rw [if_neg (hcond ht ho), fieldCheck_ok hgi]
    dsimp only
    rw [fieldCheck_ok hgt]
    dsimp only
    rw [fieldCheck_ok hgc]
    dsimp only
    rw [validateB64_badLength si hne hall IV_LENGTH hlen]
  · -- tag wrong length
    intro ht ho si st sc hgi hgt hgc hne hall hlen hne2 hall2 hlen2
    unfold parsePayload parsePayloadT
    rw [if_neg (hcond ht ho), fieldCheck_ok hgi]
    dsimp only
    rw [fieldCheck_ok hgt]
    dsimp only
    rw [fieldCheck_ok hgc]
    dsimp only
    rw [validateB64_ok_intro si hne hall (some IV_LENGTH) (Or.inr (by rw [hlen]))]
    dsimp only
    rw [validateB64_badLength st hne2 hall2 TAG_LENGTH hlen2]
  · -- empty ciphertext
    intro ht ho si st sc hgi hgt hgc hne hall hlen hne2 hall2 hlen2 hne3 hall3 hlen3
    unfold parsePayload parsePayloadT
    rw [if_neg (hcond ht ho), fieldCheck_ok hgi]
    dsimp only
    rw [fieldCheck_ok hgt]
    dsimp only
    rw [fieldCheck_ok hgc]
    dsimp only
    rw [validateB64_ok_intro si hne hall (some IV_LENGTH) (Or.inr (by rw [hlen]))]
    dsimp only
    rw [validateB64_ok_intro st hne2 hall2 (some TAG_LENGTH) (Or.inr (by rw [hlen2]))]
    dsimp only
    rw [validateB64_ok_intro sc hne3 hall3 none (Or.inl rfl)]
    dsimp only
    rw [hlen3]
    rfl
  · -- no decode or cipher call
    unfold parsePayloadT
    by_cases h1 : (!(isTruthy v) || !(typeofIsObject v)) = true
    · rw [if_pos h1]
    · rw [if_neg h1]
      rcases hiv : fieldCheck v (toCodes "iv") with e | si
      · rfl
      · dsimp only
        rcases htg : fieldCheck v (toCodes "tag") with e | st
        · rfl
        · dsimp only
          rcases hct : fieldCheck v (toCodes "ciphertext") with e | sc
          · rfl
          · dsimp only
            rcases hvi : validateBase64AndGetLength si (some IV_LENGTH) with e | ni
            · rfl
            · dsimp only
              rcases hvt : validateBase64AndGetLength st (some TAG_LENGTH) with e | nt
              · rfl
              · dsimp only
                rcases hvc : validateBase64AndGetLength sc none with e | nc
                · rfl
                · dsimp only
                  by_cases hz : (nc == 0) = true
                  · rw [if_pos hz]
                  · rw [if_neg hz]

/-- Claim C10 (implicit): `decodeStashToken` performs no UUID validation.  For
every input containing a colon whose (trimmed) part after the first colon
decodes to exactly 32 bytes it succeeds with `id` the trimmed part before the
first colon; it fails only when the colon is missing or the decoded key length
differs from 32.  In particular a token whose id part `hello` is not a UUID at
all (conjunct three, with `validateUUID` rejecting that id) still decodes. -/
theorem c10_decodeStashToken_no_uuid_check :
    (∀ t : List Nat, t.findIdx? (fun c => c == 58) = none →
       decodeStashToken t = .error .missingColon) ∧
    (∀ (t : List Nat) (i : Nat), t.findIdx? (fun c => c == 58) = some i →
       ((decodeBase64Url (jsTrim (t.drop (i + 1)))).length = KEY_LENGTH →
          decodeStashToken t =
            .ok { id := jsTrim (t.take i), key := decodeBase64Url (jsTrim (t.drop (i + 1))) }) ∧
       ((decodeBase64Url (jsTrim (t.drop (i + 1)))).length ≠ KEY_LENGTH →
          decodeStashToken t =
            .error (.badKeyLen KEY_LENGTH (decodeBase64Url (jsTrim (t.drop (i + 1)))).length))) ∧
    (validateUUID (toCodes "hello") = false ∧
       decodeStashToken (toCodes "hello:AAAAAAAAAAAAAAAAAAAAAAAAAAAAAAAAAAAAAAAAAAA") =
         .ok { id := toCodes "hello", key := List.replicate 32 0 }) := by
  refine ⟨?_, ?_, by decide⟩
  · intro t h
    unfold decodeStashToken
    rw [h]
  · intro t i h
    constructor
    · intro hl
      unfold decodeStashToken
      rw [h]
      dsimp only
      rw [if_neg (by simp [hl])]
    · intro hl
      unfold decodeStashToken
      rw [h]
      dsimp only
      rw [if_pos hl]

/-- Witness for C10: a token with no colon is rejected with the missing-colon
error, by the first conjunct at a concrete input. -/
theorem c10_decodeStashToken_no_uuid_check_witness :
    decodeStashToken (toCodes "nocolon") = .error .missingColon :=
  c10_decodeStashToken_no_uuid_check.1 (toCodes "nocolon") (by decide)

theorem stashMatch_ne_empty {s id key : List Nat} (h : stashMatch s = some (id, key)) :
    s.isEmpty = false := by
  unfold stashMatch at h
  by_cases hu : uuidShape (s.take 36) = true
  · have h36 : s.length ≥ 36 := by
      have hu' := hu
      simp only [uuidShape, Bool.and_eq_true, beq_iff_eq, List.length_take] at hu'
      omega
    cases s with
    | nil => simp at h36
    | cons a t => rfl
  · rw [if_neg hu] at h
    simp at h

/-- Counterexample to claim C4 as stated: the token
`aaaaaaaa-aaaa-4aaa-8aaa-aaaaaaaaaaaa:=` matches the structural pattern
`<uuidv4>:<base64 charset key>` (the key `=` lies in the regex's
`[A-Za-z0-9+/=_-]` class) and its key's decoded length per the allocation-free
formula is `-1 ≠ 32`, yet parsing fails with the base64-syntax error, not the
length-specific one. -/
theorem c4_counterexample :
    (stashMatch (jsTrim (toCodes "aaaaaaaa-aaaa-4aaa-8aaa-aaaaaaaaaaaa:="))).isSome = true ∧
    decodedLenB64Any (toCodes "=") ≠ (KEY_LENGTH : Int) ∧
    validateAndParseStashFormatT (toCodes "aaaaaaaa-aaaa-4aaa-8aaa-aaaaaaaaaaaa:=") =
      (.failure .invalidB64Key, 0) ∧
    StashErr.invalidB64Key ≠ StashErr.badKeyLength := by
  decide

/-- Claim C4 amended: for every token matching `<uuidv4>:<key>` whose key also
passes the base64/base64url syntactic validation (`validateBase64`), parsing
fails with the length-specific error whenever `decodedLenB64Any` of the key is
not exactly 32, with zero decode calls (the failure precedes any decode);
and a 43-character base64url key decoding to 32 bytes parses successfully
(performing its single decode). -/
theorem c4_length_fast_reject :
    (∀ t id key : List Nat, stashMatch (jsTrim t) = some (id, key) →
       validateBase64 key = true →
       decodedLenB64Any key ≠ (KEY_LENGTH : Int) →
       validateAndParseStashFormatT t = (.failure .badKeyLength, 0)) ∧
    validateAndParseStashFormatT
        (toCodes "aaaaaaaa-aaaa-4aaa-8aaa-aaaaaaaaaaaa:AAAAAAAAAAAAAAAAAAAAAAAAAAAAAAAAAAAAAAAAAAA") =
      (.success (toCodes "aaaaaaaa-aaaa-4aaa-8aaa-aaaaaaaaaaaa")
        (toCodes "AAAAAAAAAAAAAAAAAAAAAAAAAAAAAAAAAAAAAAAAAAA"), 1) := by
  constructor
  · intro t id key hm hb hl
    unfold validateAndParseStashFormatT
    rw [if_neg (by simp [stashMatch_ne_empty hm])]
    rw [hm]
    dsimp only
    rw [if_neg (by simp [hb]), if_pos hl]
  · decide

/-- Witness for C4: the same valid UUID with a 42-character base64url key (31
decoded bytes) fails with the length-specific error before any decode. -/
theorem c4_length_fast_reject_witness :
    validateAndParseStashFormatT
        (toCodes "aaaaaaaa-aaaa-4aaa-8aaa-aaaaaaaaaaaa:AAAAAAAAAAAAAAAAAAAAAAAAAAAAAAAAAAAAAAAAAA") =
      (.failure .badKeyLength, 0) :=
  c4_length_fast_reject.1
    (toCodes "aaaaaaaa-aaaa-4aaa-8aaa-aaaaaaaaaaaa:AAAAAAAAAAAAAAAAAAAAAAAAAAAAAAAAAAAAAAAAAA")
    (toCodes "aaaaaaaa-aaaa-4aaa-8aaa-aaaaaaaaaaaa")
    (toCodes "AAAAAAAAAAAAAAAAAAAAAAAAAAAAAAAAAAAAAAAAAA")
    (by decide) (by decide) (by decide)

/-- Counterexample to claim C5 as stated: `decodeBase64Url` never rejects.  The
key `AAAA…A!` (43 `A`s and one `!`, a character outside `[A-Za-z0-9_-]` and
outside the padded base64 alphabet) is decoded to a 32-byte buffer — Node's
base64 decoder skips characters without a sextet value — and on the token key
path `decodeStashToken` accepts a token carrying it. -/
theorem c5_counterexample :
    (toCodes "AAAAAAAAAAAAAAAAAAAAAAAAAAAAAAAAAAAAAAAAAAA!").all isB64UrlChar = false ∧
    decodeBase64Url (toCodes "AAAAAAAAAAAAAAAAAAAAAAAAAAAAAAAAAAAAAAAAAAA!") =
      List.replicate 32 0 ∧
    decodeStashToken (toCodes "x:AAAAAAAAAAAAAAAAAAAAAAAAAAAAAAAAAAAAAAAAAAA!") =
      .ok { id := toCodes "x", key := List.replicate 32 0 } := by
  decide

/-- Claim C5 amended: out-of-charset rejection is performed by the validators,
not by the decoder.  `validateBase64AndGetLength` (the payload field path)
rejects every input containing a character outside `[A-Za-z0-9_-]`, and
`validateAndParseStashFormat` (the CLI token path) succeeds only with a key
that passed `validateBase64` (base64url charset, or padded standard base64);
`decodeBase64Url` itself never throws and `decodeStashToken` accepts foreign
characters in the key as long as the remaining characters decode to 32
bytes. -/
theorem c5_charset_rejection :
    (∀ (s : List Nat) (c : Nat), c ∈ s → isB64UrlChar c = false →
       ∀ e : Option Nat, validateBase64AndGetLength s e = .error .badB64Format) ∧
    (∀ (t id key : List Nat) (n : Nat),
       validateAndParseStashFormatT t = (.success id key, n) →
       validateBase64 key = true) := by
  constructor
  · intro s c hc hbad e
    have hne : s.isEmpty = false := by
      cases s with
      | nil => simp at hc
      | cons a t => rfl
    have hall : s.all isB64UrlChar = false := by
      by_contra hcon
      have htrue : s.all isB64UrlChar = true := by
        cases hval : s.all isB64UrlChar
        · exact absurd hval hcon
        · rfl
      have hcv := List.all_eq_true.mp htrue c hc
      rw [hbad] at hcv
      exact Bool.false_ne_true hcv
    unfold validateBase64AndGetLength
    rw [if_neg (by simp [hne]), if_pos (by simp [hall])]
  · intro t id key n h
    unfold validateAndParseStashFormatT at h
    by_cases he : (jsTrim t).isEmpty = true
    · rw [if_pos he] at h
      simp at h
    · rw [if_neg he] at h
      rcases hm : stashMatch (jsTrim t) with _ | ⟨id', key'⟩
      · rw [hm] at h
        dsimp only at h
        split_ifs at h <;> simp at h
      · rw [hm] at h
        dsimp only at h
        by_cases hb : validateBase64 key' = true
        · rw [if_neg (by simp [hb])] at h
          split_ifs at h with h2
          · simp at h
          · simp only [Prod.mk.injEq, StashParseResult.success.injEq] at h
            rw [← h.1.2]
            exact hb
        · rw [if_pos (by simpa using hb)] at h
          simp at h

/-- Witness for C5 (amended): the payload-path validator rejects `ab!` (which
contains `!`, outside the charset) with the format error. -/
theorem c5_charset_rejection_witness :
    validateBase64AndGetLength (toCodes "ab!") none = .error .badB64Format :=
  c5_charset_rejection.1 (toCodes "ab!") 33 (by decide) (by decide) none

/-! ### Decoded-length formula (decodedLenB64Any, validation.ts vs spec 4.1) -/

/-- Number of trailing `'='` characters. -/
def trailingEqCount (s : List Nat) : Nat :=
  (s.reverse.takeWhile (fun c => c == 61)).length

/-- The spec's padded-branch formula with `padCount` the number of trailing
`'='` characters, exactly as claim C6 words it. -/
def specPaddedLen (s : List Nat) : Int :=
  if s.length % 4 ≠ 0 then -1
  else (s.length / 4 : Int) * 3 - (trailingEqCount s : Int)

/-- The spec's unpadded-branch formula:
`floor((len + padNeeded)*3/4) - padNeeded` with `padNeeded = (4 - len%4) % 4`. -/
def specUnpaddedLen (s : List Nat) : Int :=
  (((s.length + (4 - s.length % 4) % 4) * 3 / 4 : Nat) : Int) -
    (((4 - s.length % 4) % 4 : Nat) : Int)

/-- Counterexample to claim C6 as stated: on `A===` (which contains `'='` and
has length a multiple of 4) the code returns `(4/4)*3 - 2 = 1` because its pad
count is capped at two by the `endsWith('==') ? 2 : endsWith('=') ? 1 : 0`
chain, while the claim's formula `(len/4)*3 - padCount` with `padCount` the
number of trailing `'='` (three here) gives `0`. -/
theorem c6_counterexample :
    decodedLenB64Any (toCodes "A===") ≠ specPaddedLen (toCodes "A===") ∧
    decodedLenB64Any (toCodes "A===") = 1 ∧ specPaddedLen (toCodes "A===") = 0 := by
  decide

theorem suffixEq_trailing (s : List Nat) :
    (if [61, 61].isSuffixOf s then (2 : Int) else if [61].isSuffixOf s then 1 else 0) =
      (min (trailingEqCount s) 2 : Int) := by
  have h2 : [61, 61].isSuffixOf s = [61, 61].isPrefixOf s.reverse := by
    simp [List.isSuffixOf]
  have h1 : [61].isSuffixOf s = [61].isPrefixOf s.reverse := by
    simp [List.isSuffixOf]
  rw [h2, h1]
  unfold trailingEqCount
  rcases s.reverse with _ | ⟨a, t⟩
  · simp [List.isPrefixOf, List.takeWhile]
  · by_cases ha : a = 61
    · subst ha
      rcases t with _ | ⟨b, u⟩
      · simp [List.isPrefixOf, List.takeWhile]
      · by_cases hb : b = 61
        · subst hb
          simp only [List.isPrefixOf, List.takeWhile]
          simp only [show ((61 : Nat) == 61) = true from rfl, Bool.and_self,
            Bool.true_and, List.length_cons]
          rw [if_pos (by simp [List.isPrefixOf])]
          push_cast
          omega
        · have hb' : (b == 61) = false := by simpa using hb
          simp [List.isPrefixOf, List.takeWhile, hb', Ne.symm hb]
    · have ha' : (a == 61) = false := by simpa using ha
      simp [List.isPrefixOf, List.takeWhile, ha', Ne.symm ha]

/-- Claim C6 amended: `decodedLenB64Any` matches the spec formula with the pad
count capped at two (`min(trailing '=' count, 2)`); for padded input it
requires length a multiple of 4 (else `-1`), and for unpadded input it equals
the spec's `floor((len + padNeeded)*3/4) - padNeeded` exactly.  In addition,
the length `validateBase64AndGetLength` computes equals the same unpadded
formula. -/
theorem c6_decodedLen_formula :
    (∀ s : List Nat,
       decodedLenB64Any s =
         if s.contains 61 then
           (if s.length % 4 ≠ 0 then -1
            else (s.length / 4 : Int) * 3 - (min (trailingEqCount s) 2 : Int))
         else specUnpaddedLen s) ∧
    (∀ (s : List Nat) (e : Option Nat) (n : Nat),
       validateBase64AndGetLength s e = .ok n → (n : Int) = specUnpaddedLen s) := by
  constructor
  · intro s
    unfold decodedLenB64Any
    by_cases hc : s.contains 61
    · rw [if_pos hc, if_pos hc]
      dsimp only
      rw [suffixEq_trailing s]
    · rw [if_neg hc, if_neg hc]
      unfold specUnpaddedLen
      dsimp only
      have harith : (if s.length % 4 == 0 then 0 else 4 - s.length % 4) =
          (4 - s.length % 4) % 4 := by
        by_cases h0 : s.length % 4 = 0
        · simp [h0]
        · rw [if_neg (by simpa using h0)]
          omega
      rw [harith]
  · intro s e n h
    obtain ⟨hne, _, hn, _⟩ := validateB64_ok_elim s e n h
    unfold specUnpaddedLen
    have hlen : 1 ≤ s.length := by
      cases s with
      | nil => exact absurd rfl hne
      | cons a t => simp
    omega

/-- Witness for C6 (amended), for the hypothesis-bearing second conjunct: on
the four-character input `AAAA` the validator's computed length `3` equals the
spec's unpadded formula. -/
theorem c6_decodedLen_formula_witness :
    ((3 : Nat) : Int) = specUnpaddedLen (toCodes "AAAA") :=
  c6_decodedLen_formula.2 (toCodes "AAAA") none 3 (by decide)

/-! ### Resilient request layer (fetch-retry.ts and its signal-chaining
variant)

The network itself is modelled by a script `Nat → FetchOutcome` giving what
`fetch` does on each attempt index; the caller-supplied `options.signal` is
modelled by `Nat → Bool` (already-aborted at the start of attempt `i`).  The
run result carries the issued-fetch count and the backoff-delay count. -/

/-- A thrown JavaScript error as inspected by isRetryableError (an object with
`name` and a string `message`). -/
structure JsError where
  name : List Nat
  message : List Nat
deriving DecidableEq

/-- Does the first list start with the second? -/
def listStartsWith : List Nat → List Nat → Bool
  | _, [] => true
  | [], _ :: _ => false
  | a :: as, b :: bs => a == b && listStartsWith as bs

/-- JavaScript `String.prototype.includes` (substring test). -/
def containsSub : List Nat → List Nat → Bool
  | [], needle => needle.isEmpty
  | a :: t, needle => listStartsWith (a :: t) needle || containsSub t needle

/-- isRetryableError from fetch-retry.ts: a `TypeError` whose message contains
one of the transient network fault markers. -/
def isRetryableError (e : JsError) : Bool :=
  e.name == toCodes "TypeError" &&
  (containsSub e.message (toCodes "fetch failed") ||
   containsSub e.message (toCodes "ECONNRESET") ||
   containsSub e.message (toCodes "ETIMEDOUT") ||
   containsSub e.message (toCodes "ENOTFOUND") ||
   containsSub e.message (toCodes "ECONNREFUSED") ||
   containsSub e.message (toCodes "timeout") ||
   containsSub e.message (toCodes "socket hang up"))

/-- What `fetch` does on a given attempt. -/
inductive FetchOutcome where
  | response (status : Nat)
  | failure (e : JsError)

/-- `response.ok` (status in the 2xx range). -/
def statusOk (s : Nat) : Bool := 200 ≤ s && s ≤ 299

/-- The retry test `!response.ok && [500, 502, 503, 504].includes(status)`. -/
def retryStatus (s : Nat) : Bool :=
  !(statusOk s) && (s == 500 || s == 502 || s == 503 || s == 504)

/-- Observable outcome of a fetchWithRetry run. -/
inductive FetchResult where
  | returned (status : Nat)
  | threw (e : JsError)
  | threwHttp (status attempts : Nat)
  | threwAbort
  | exhausted
deriving DecidableEq

/-- The `for (attempt = 0; attempt <= maxRetries; ...)` loop of
src/utils/fetch-retry.ts, with explicit fuel (`maxRetries + 1 - attempt`) and
accumulated fetch/delay counters.  `threwHttp s n` models
`new Error('HTTP s after n attempts')`; `exhausted` is the unreachable
`'Max retries exceeded'` throw after the loop. -/
def fetchGo (script : Nat → FetchOutcome) (maxRetries : Nat) :
    Nat → Nat → Nat → Nat → FetchResult × Nat × Nat
  | _, 0, fetches, delays => (.exhausted, fetches, delays)
  | attempt, fuel + 1, fetches, delays =>
    match script attempt with
    | .response s =>
        if retryStatus s then
          if attempt == maxRetries then (.threwHttp s (maxRetries + 1), fetches + 1, delays)
          else fetchGo script maxRetries (attempt + 1) fuel (fetches + 1) (delays + 1)
        else (.returned s, fetches + 1, delays)
    | .failure e =>
        if !isRetryableError e || attempt == maxRetries then (.threw e, fetches + 1, delays)
        else fetchGo script maxRetries (attempt + 1) fuel (fetches + 1) (delays + 1)

/-- fetchWithRetry from src/utils/fetch-retry.ts.  The caller-supplied signal
is accepted (inside `options`) but never consulted: line 48-51 spreads
`options` and then overrides `signal` with the internal timeout controller's
own signal, so `_signalAborted` is deliberately unused here — exactly as in
the source. -/
def fetchWithRetry (script : Nat → FetchOutcome) (_signalAborted : Nat → Bool)
    (maxRetries : Nat) : FetchResult × Nat × Nat :=
  fetchGo script maxRetries 0 (maxRetries + 1) 0 0

/-- The attempt loop of the signal-chaining variant (part_000): at the start
of each attempt, if the caller-supplied signal is already aborted, throw a
DOMException AbortError immediately without issuing the request. -/
def fetchGoSig (script : Nat → FetchOutcome) (signalAborted : Nat → Bool) (maxRetries : Nat) :
    Nat → Nat → Nat → Nat → FetchResult × Nat × Nat
  | _, 0, fetches, delays => (.exhausted, fetches, delays)
  | attempt, fuel + 1, fetches, delays =>
    if signalAborted attempt then (.threwAbort, fetches, delays)
    else match script attempt with
    | .response s =>
        if retryStatus s then
          if attempt == maxRetries then (.threwHttp s (maxRetries + 1), fetches + 1, delays)
          else fetchGoSig script signalAborted maxRetries (attempt + 1) fuel (fetches + 1) (delays + 1)
        else (.returned s, fetches + 1, delays)
    | .failure e =>
        if !isRetryableError e || attempt == maxRetries then (.threw e, fetches + 1, delays)
        else fetchGoSig script signalAborted maxRetries (attempt + 1) fuel (fetches + 1) (delays + 1)

/-- fetchWithRetry from the signal-chaining variant (part_000). -/
def fetchWithRetrySig (script : Nat → FetchOutcome) (signalAborted : Nat → Bool)
    (maxRetries : Nat) : FetchResult × Nat × Nat :=
  fetchGoSig script signalAborted maxRetries 0 (maxRetries + 1) 0 0

/-- computeBackoff from fetch-retry.ts:
`Math.min(base * Math.pow(2, attempt) + Math.random() * 1000, max)`; the
`Math.random()` draw is the input `j ∈ [0, 1)`. -/
def computeBackoff (attempt : Nat) (base max j : ℚ) : ℚ :=
  min (base * 2 ^ attempt + j * 1000) max

/-- MAX_DELAY from fetch-retry.ts. -/
def MAX_DELAY : ℚ := 10000

/-- Counterexample to claim C7 as stated: the claim's lower bound
`base * 2^attempt ≤ delay` fails for base delays whose exponential already
exceeds the cap — with base 20000, attempt 0 and jitter 0 the computed delay
is the cap 10000, strictly below `base * 2^0 = 20000`. -/
theorem c7_counterexample :
    computeBackoff 0 20000 MAX_DELAY 0 = 10000 ∧
    ¬((20000 : ℚ) * 2 ^ 0 ≤ computeBackoff 0 20000 MAX_DELAY 0) := by
  constructor
  · norm_num [computeBackoff, MAX_DELAY]
  · norm_num [computeBackoff, MAX_DELAY]

/-- Claim C7 amended: for every attempt index, base and jitter draw
`j ∈ [0, 1)`, the computed delay equals
`min(base * 2^attempt + j*1000, 10000)`; it never exceeds 10000 and never
exceeds `base * 2^attempt + 1000`, and it is at least `base * 2^attempt`
provided `base * 2^attempt ≤ 10000` (as with the default base 1000 and
attempt indices 0..3); when `base * 2^attempt` exceeds the cap the delay is
the cap, below the claimed interval. -/
theorem c7_backoff_bounds (attempt : Nat) (base j : ℚ)
    (hj0 : 0 ≤ j) (hj1 : j < 1) :
    computeBackoff attempt base MAX_DELAY j = min (base * 2 ^ attempt + j * 1000) 10000 ∧
    computeBackoff attempt base MAX_DELAY j ≤ 10000 ∧
    computeBackoff attempt base MAX_DELAY j ≤ base * 2 ^ attempt + 1000 ∧
    (base * 2 ^ attempt ≤ 10000 →
       base * 2 ^ attempt ≤ computeBackoff attempt base MAX_DELAY j) := by
  unfold computeBackoff MAX_DELAY
  refine ⟨rfl, min_le_right _ _, ?_, ?_⟩
  · calc min (base * 2 ^ attempt + j * 1000) 10000
        ≤ base * 2 ^ attempt + j * 1000 := min_le_left _ _
      _ ≤ base * 2 ^ attempt + 1000 := by linarith
  · intro hle
    refine le_min ?_ hle
    linarith

/-- Witness for C7 (amended) at attempt 1, base 1000, jitter draw 1/2. -/
theorem c7_backoff_bounds_witness :
    computeBackoff 1 1000 MAX_DELAY (1 / 2) ≤ 1000 * 2 ^ 1 + 1000 :=
  (c7_backoff_bounds 1 1000 (1 / 2) (by norm_num) (by norm_num)).2.2.1

theorem fetchGo_all_retryStatus (script : Nat → FetchOutcome) (st : Nat → Nat)
    (maxRetries : Nat) :
    ∀ (fuel attempt fetches delays : Nat), attempt + fuel = maxRetries →
      (∀ i, attempt ≤ i → i ≤ maxRetries →
         script i = .response (st i) ∧ retryStatus (st i) = true) →
      fetchGo script maxRetries attempt (fuel + 1) fetches delays =
        (.threwHttp (st maxRetries) (maxRetries + 1), fetches + fuel + 1, delays + fuel) := by
  intro fuel
  induction fuel with
  | zero =>
      intro attempt fetches delays hat h
      have ha : attempt = maxRetries := by omega
      subst ha
      obtain ⟨hs, hr⟩ := h attempt le_rfl le_rfl
      unfold fetchGo
      rw [hs]
      dsimp only
      rw [if_pos hr, if_pos (by simp)]
      simp
  | succ n ih =>
      intro attempt fetches delays hat h
      obtain ⟨hs, hr⟩ := h attempt le_rfl (by omega)
      unfold fetchGo
      rw [hs]
      dsimp only
      rw [if_pos hr, if_neg (by simp; omega)]
      have := ih (attempt + 1) (fetches + 1) (delays + 1) (by omega)
        (fun i hi1 hi2 => h i (by omega) hi2)
      rw [this]
      refine congrArg _ ?_
      simp only [Prod.mk.injEq]
      omega

theorem fetchGo_all_retryErr (script : Nat → FetchOutcome) (err : Nat → JsError)
    (maxRetries : Nat) :
    ∀ (fuel attempt fetches delays : Nat), attempt + fuel = maxRetries →
      (∀ i, attempt ≤ i → i ≤ maxRetries →
         script i = .failure (err i) ∧ isRetryableError (err i) = true) →
      fetchGo script maxRetries attempt (fuel + 1) fetches delays =
        (.threw (err maxRetries), fetches + fuel + 1, delays + fuel) := by
  intro fuel
  induction fuel with
  | zero =>
      intro attempt fetches delays hat h
      have ha : attempt = maxRetries := by omega
      subst ha
      obtain ⟨hs, hr⟩ := h attempt le_rfl le_rfl
      unfold fetchGo
      rw [hs]
      dsimp only
      rw [if_pos (by simp)]
      simp
  | succ n ih =>
      intro attempt fetches delays hat h
      obtain ⟨hs, hr⟩ := h attempt le_rfl (by omega)
      unfold fetchGo
      rw [hs]
      dsimp only
      rw [if_neg (by simp [hr]; omega)]
      have := ih (attempt + 1) (fetches + 1) (delays + 1) (by omega)
        (fun i hi1 hi2 => h i (by omega) hi2)
      rw [this]
      refine congrArg _ ?_
      simp only [Prod.mk.injEq]
      omega

/-- Claim C8: fetchWithRetry retries exactly on 500/502/503/504 responses and
on narrowly-classified transient network errors while attempts remain; every
other response — including 4xx — is returned without retry, a non-retryable
error is rethrown immediately, and after `maxRetries + 1` attempts it throws
the last network error or, for repeated 5xx, the synthesized
`HTTP <status> after <maxRetries+1> attempts` error.  The concrete scenarios:
responses `[503, 503, 200]` with `maxRetries = 3` give exactly 2 backoff
delays and a returned 200, and `[404]` is returned immediately with zero
delays. -/
theorem c8_fetchWithRetry_policy :
    (∀ (script : Nat → FetchOutcome) (maxRetries s : Nat),
       script 0 = .response s → retryStatus s = false →
       fetchWithRetry script (fun _ => false) maxRetries = (.returned s, 1, 0)) ∧
    (∀ (script : Nat → FetchOutcome) (maxRetries : Nat) (e : JsError),
       script 0 = .failure e → isRetryableError e = false →
       fetchWithRetry script (fun _ => false) maxRetries = (.threw e, 1, 0)) ∧
    (∀ (script : Nat → FetchOutcome) (st : Nat → Nat) (maxRetries : Nat),
       (∀ i, i ≤ maxRetries → script i = .response (st i) ∧ retryStatus (st i) = true) →
       fetchWithRetry script (fun _ => false) maxRetries =
         (.threwHttp (st maxRetries) (maxRetries + 1), maxRetries + 1, maxRetries)) ∧
    (∀ (script : Nat → FetchOutcome) (err : Nat → JsError) (maxRetries : Nat),
       (∀ i, i ≤ maxRetries → script i = .failure (err i) ∧ isRetryableError (err i) = true) →
       fetchWithRetry script (fun _ => false) maxRetries =
         (.threw (err maxRetries), maxRetries + 1, maxRetries)) ∧
    (fetchWithRetry (fun i => if i ≤ 1 then .response 503 else .response 200)
       (fun _ => false) 3 = (.returned 200, 3, 2)) ∧
    (fetchWithRetry (fun _ => .response 404) (fun _ => false) 3 = (.returned 404, 1, 0)) := by
  refine ⟨?_, ?_, ?_, ?_, by decide, by decide⟩
  · intro script maxRetries s hs hr
    unfold fetchWithRetry fetchGo
    rw [hs]
    dsimp only
    rw [if_neg (by simp [hr])]
  · intro script maxRetries e hs hr
    unfold fetchWithRetry fetchGo
    rw [hs]
    dsimp only
    rw [if_pos (by simp [hr])]
  · intro script st maxRetries h
    have := fetchGo_all_retryStatus script st maxRetries maxRetries 0 0 0 (by omega)
      (fun i _ hi2 => h i hi2)
    unfold fetchWithRetry
    rw [this]
    simp
  · intro script err maxRetries h
    have := fetchGo_all_retryErr script err maxRetries maxRetries 0 0 0 (by omega)
      (fun i _ hi2 => h i hi2)
    unfold fetchWithRetry
    rw [this]
    simp

/-- Witness for C8 at concrete inputs: a 418 response is returned at once with
no delay, and a non-retryable `Error` (name not `TypeError`) is rethrown at
once. -/
theorem c8_fetchWithRetry_policy_witness :
    fetchWithRetry (fun _ => .response 418) (fun _ => false) 3 = (.returned 418, 1, 0) ∧
    fetchWithRetry (fun _ => .failure ⟨toCodes "Error", toCodes "boom"⟩) (fun _ => false) 3 =
      (.threw ⟨toCodes "Error", toCodes "boom"⟩, 1, 0) :=
  ⟨c8_fetchWithRetry_policy.1 (fun _ => .response 418) 3 418 rfl (by decide),
   c8_fetchWithRetry_policy.2.1 (fun _ => .failure ⟨toCodes "Error", toCodes "boom"⟩) 3
     ⟨toCodes "Error", toCodes "boom"⟩ rfl (by decide)⟩

/-- Claim C9, evaluated at the failing input: with the caller-supplied signal
already aborted at the start of the call, the src/utils/fetch-retry.ts variant
still issues the request (fetch count 1) and returns the response instead of
failing with an abort error — it overrides `options.signal` with its own
controller's signal — while the signal-chaining variant (part_000) fails
immediately with the abort error and issues no request, as the claim
requires. -/
theorem c9_caller_signal_divergence :
    fetchWithRetry (fun _ => .response 200) (fun _ => true) 3 = (.returned 200, 1, 0) ∧
    fetchWithRetrySig (fun _ => .response 200) (fun _ => true) 3 = (.threwAbort, 0, 0) := by
  constructor
  · decide
  · decide

/-- Witness for C3 at concrete parsed values: a null payload is rejected as
not-an-object, and an object with a 16-character iv (12 decoded bytes), a
22-character tag (16 bytes) and a 2-character ciphertext (1 byte) is
accepted. -/
theorem c3_parsePayload_validation_witness :
    parsePayload .jnull = .error .notAnObject ∧
    (∃ p, parsePayload (.jobj
      [(toCodes "iv", .jstr (toCodes "AAAAAAAAAAAAAAAA")),
       (toCodes "tag", .jstr (toCodes "AAAAAAAAAAAAAAAAAAAAAA")),
       (toCodes "ciphertext", .jstr (toCodes "AA"))]) = .ok p) :=
  ⟨(c3_parsePayload_validation .jnull).2.1 (by intro h; exact absurd h.1 (by decide)),
   (c3_parsePayload_validation _).1.mpr ⟨rfl, rfl, toCodes "AAAAAAAAAAAAAAAA",
     toCodes "AAAAAAAAAAAAAAAAAAAAAA", toCodes "AA", rfl, rfl, rfl,
     by decide, by decide, by decide, by decide, by decide, by decide⟩⟩
